import Mathlib

/-!
# Verification of the suno-api anti-detection session/transport core

A shallow embedding, in Lean 4, of the core state and operations of the
`SunoApi` repository:

* `src/lib/fingerprints/index.ts` — fingerprint profile catalog and the
  `FingerprintManager` rotation/blocking policy;
* `src/lib/SunoApi.ts` (HTTP client part) — `HttpClient.requestWithRetry`,
  `rotateFingerprint`, `blockCurrentProfile`, `isCloudflareChallenge`;
* `src/lib/suno/AuthService.ts` — `isTokenValid`, `refreshToken`, `setToken`;
* the `sunoApi` keyed promise cache in `src/lib/suno/SunoApi.ts`.

Conventions of the embedding:

* JS `Map`s of usage counters become total functions `String → Nat` (the
  source reads them with `?? 0`, so absent keys already behave as `0`).
* JS `Set`s of profile ids become duplicate-free `List String` values with
  membership as the set interface.
* `Math.random()` is modelled by an oracle stream `randOracle : Nat → Nat`
  carried in the manager state together with a cursor `randUsed`; the random
  branch consumes one draw per call, reduced `% availableProfiles.length`
  exactly like `Math.floor(Math.random() * length)`.
* Wall-clock reads (`Date.now()`) become explicit parameters; the
  `lastRotation` timestamp, which no modelled operation ever reads back, is
  not carried in the state.
* Unbounded JS recursion / loops become fuel-indexed functions returning
  `Option`; `none` models divergence of the source (which for
  `getNextProfile` can only happen on an empty catalog).
-/

namespace SunoVerify

/-- Platform of a fingerprint profile: `'android' | 'ios' | 'desktop'`
(`FingerprintProfile.platform` in `src/lib/fingerprints/index.ts`). -/
inductive Platform where
  | android
  | ios
  | desktop
deriving DecidableEq, Repr

/-- A device fingerprint profile (`FingerprintProfile` in
`src/lib/fingerprints/index.ts`).  The constant header payload fields
(`clientHints`, `ja3Fingerprint`, `http2Fingerprint`, `sunoHeaders`) are
opaque string data that only `buildHeadersFromProfile` reads; no rotation,
blocking or retry logic modelled here ever inspects them, so they are not
carried. -/
structure FingerprintProfile where
  id : String
  name : String
  platform : Platform
  userAgent : String
deriving DecidableEq, Repr

/-- `PIXEL_8_CHROME_130` from `src/lib/fingerprints/index.ts`. -/
def PIXEL_8_CHROME_130 : FingerprintProfile :=
  { id := "pixel8-chrome130"
    name := "Google Pixel 8 - Chrome 130"
    platform := .android
    userAgent := "Mozilla/5.0 (Linux; Android 14; Pixel 8 Build/UQ1A.240105.004) AppleWebKit/537.36 (KHTML, like Gecko) Version/4.0 Chrome/130.0.6723.86 Mobile Safari/537.36" }

/-- `GALAXY_S24_CHROME_130` from `src/lib/fingerprints/index.ts`. -/
def GALAXY_S24_CHROME_130 : FingerprintProfile :=
  { id := "galaxy-s24-chrome130"
    name := "Samsung Galaxy S24 Ultra - Chrome 130"
    platform := .android
    userAgent := "Mozilla/5.0 (Linux; Android 14; SM-S928B Build/UP1A.231005.007) AppleWebKit/537.36 (KHTML, like Gecko) Chrome/130.0.6723.86 Mobile Safari/537.36" }

/-- `ONEPLUS_12_CHROME_130` from `src/lib/fingerprints/index.ts`. -/
def ONEPLUS_12_CHROME_130 : FingerprintProfile :=
  { id := "oneplus12-chrome130"
    name := "OnePlus 12 - Chrome 130"
    platform := .android
    userAgent := "Mozilla/5.0 (Linux; Android 14; CPH2573 Build/UKQ1.230924.001) AppleWebKit/537.36 (KHTML, like Gecko) Chrome/130.0.6723.86 Mobile Safari/537.36" }

/-- `XIAOMI_14_CHROME_130` from `src/lib/fingerprints/index.ts`. -/
def XIAOMI_14_CHROME_130 : FingerprintProfile :=
  { id := "xiaomi14-chrome130"
    name := "Xiaomi 14 Pro - Chrome 130"
    platform := .android
    userAgent := "Mozilla/5.0 (Linux; Android 14; 23116PN5BC Build/UKQ1.231003.002) AppleWebKit/537.36 (KHTML, like Gecko) Chrome/130.0.6723.86 Mobile Safari/537.36" }

/-- `IPHONE_15_SAFARI_17` from `src/lib/fingerprints/index.ts`. -/
def IPHONE_15_SAFARI_17 : FingerprintProfile :=
  { id := "iphone15-safari17"
    name := "iPhone 15 Pro - Safari 17"
    platform := .ios
    userAgent := "Mozilla/5.0 (iPhone; CPU iPhone OS 17_2 like Mac OS X) AppleWebKit/605.1.15 (KHTML, like Gecko) Version/17.2 Mobile/15E148 Safari/604.1" }

/-- `IPHONE_14_SAFARI_17` from `src/lib/fingerprints/index.ts`. -/
def IPHONE_14_SAFARI_17 : FingerprintProfile :=
  { id := "iphone14-safari17"
    name := "iPhone 14 Pro Max - Safari 17"
    platform := .ios
    userAgent := "Mozilla/5.0 (iPhone; CPU iPhone OS 17_1_2 like Mac OS X) AppleWebKit/605.1.15 (KHTML, like Gecko) Version/17.1.2 Mobile/15E148 Safari/604.1" }

/-- `FINGERPRINT_PROFILES`, the default catalog, in source order. -/
def FINGERPRINT_PROFILES : List FingerprintProfile :=
  [PIXEL_8_CHROME_130, GALAXY_S24_CHROME_130, ONEPLUS_12_CHROME_130,
   XIAOMI_14_CHROME_130, IPHONE_15_SAFARI_17, IPHONE_14_SAFARI_17]

/-- `DEFAULT_PROFILE = PIXEL_8_CHROME_130`. -/
def DEFAULT_PROFILE : FingerprintProfile := PIXEL_8_CHROME_130

/-- `RotationStrategy` from `src/lib/fingerprints/index.ts`. -/
inductive RotationStrategy where
  | roundRobin
  | random
  | leastUsed
  | platformSticky
deriving DecidableEq, Repr

/-- The whole mutable state of a `FingerprintManager` instance: the
constructor fields `profiles`, `strategy`, `preferredPlatform` together with
`ProfileRotationState` (`currentIndex`, `usageCount`, `blockedProfiles`).
`randOracle`/`randUsed` model the stream of `Math.random()` draws (see the
module docstring); the write-only `lastRotation` timestamp is not carried. -/
structure ManagerState where
  profiles : List FingerprintProfile
  strategy : RotationStrategy
  preferredPlatform : Option Platform
  currentIndex : Nat
  usageCount : String → Nat
  blockedProfiles : List String
  randOracle : Nat → Nat
  randUsed : Nat

/-- The `FingerprintManager` constructor: default catalog unless
`customProfiles` is given, strategy defaults to round-robin, index 0, all
usage counters 0, nothing blocked. -/
def mkManager (strategy : Option RotationStrategy) (preferredPlatform : Option Platform)
    (customProfiles : Option (List FingerprintProfile)) (randOracle : Nat → Nat) :
    ManagerState :=
  { profiles := customProfiles.getD FINGERPRINT_PROFILES
    strategy := strategy.getD .roundRobin
    preferredPlatform := preferredPlatform
    currentIndex := 0
    usageCount := fun _ => 0
    blockedProfiles := []
    randOracle := randOracle
    randUsed := 0 }

/-- `FingerprintManager.getAvailableProfiles`: catalog minus blocked ids,
then narrowed to the preferred platform when that filter leaves at least one
candidate. -/
def availableProfiles (m : ManagerState) : List FingerprintProfile :=
  let available := m.profiles.filter (fun p => !(m.blockedProfiles.contains p.id))
  match m.preferredPlatform with
  | none => available
  | some pf =>
    let platformFiltered := available.filter (fun p => p.platform == pf)
    if platformFiltered.length > 0 then platformFiltered else available

/-- `FingerprintManager.getCurrentProfile`: if the available set is empty,
clear `blockedProfiles` and return `DEFAULT_PROFILE`; otherwise index the
available list at `currentIndex % length` (no state change). -/
def getCurrentProfile (m : ManagerState) : FingerprintProfile × ManagerState :=
  let avail := availableProfiles m
  if h : avail = [] then
    (DEFAULT_PROFILE, { m with blockedProfiles := [] })
  else
    (avail.get ⟨m.currentIndex % avail.length, Nat.mod_lt _ (List.length_pos.mpr h)⟩, m)

/-- The `usageCount.set(id, (usageCount.get(id) ?? 0) + 1)` update performed
at the end of every `getNextProfile` call. -/
def recordUsage (m : ManagerState) (p : FingerprintProfile) : ManagerState :=
  { m with usageCount := fun x => if x = p.id then m.usageCount p.id + 1 else m.usageCount x }

/-- `FingerprintManager.getLeastUsedProfile`, written over a head `a` and
tail `rest` of the (non-empty) available list: the source initializes
`minUsage = Infinity, leastUsed = profiles[0]`, so the first loop iteration
always installs `(profiles[0], usage(profiles[0]))`; later elements replace
the accumulator only on a strictly smaller usage count, which keeps the
first element of each tied group. -/
def getLeastUsedProfile (usage : String → Nat) (a : FingerprintProfile)
    (rest : List FingerprintProfile) : FingerprintProfile :=
  (rest.foldl (fun acc q => if usage q.id < acc.2 then (q, usage q.id) else acc)
    (a, usage a.id)).1

/-- `FingerprintManager.getNextProfile`, fuel-indexed: when the available
set is empty the source clears `blockedProfiles` and recurses; with a
non-empty catalog one such clearing always suffices (fuel 2 in
`getNextProfile`), while on an empty catalog the source recurses forever,
which the model reports as `none`. -/
def getNextProfileFuel : Nat → ManagerState → Option (FingerprintProfile × ManagerState)
  | 0, _ => none
  | fuel + 1, m =>
    match availableProfiles m with
    | [] => getNextProfileFuel fuel { m with blockedProfiles := [] }
    | a :: as =>
      let avail := a :: as
      let havail : 0 < avail.length := Nat.succ_pos _
      let step : FingerprintProfile × ManagerState :=
        match m.strategy with
        | .random =>
          (avail.get ⟨m.randOracle m.randUsed % avail.length, Nat.mod_lt _ havail⟩,
           { m with randUsed := m.randUsed + 1 })
        | .leastUsed => (getLeastUsedProfile m.usageCount a as, m)
        | .platformSticky =>
          let current := avail.get ⟨m.currentIndex % avail.length, Nat.mod_lt _ havail⟩
          let samePlatform := avail.filter (fun p => p.platform == current.platform)
          if hs : samePlatform = [] then
            (avail.get ⟨(m.currentIndex + 1) % avail.length, Nat.mod_lt _ havail⟩,
             { m with currentIndex := m.currentIndex + 1 })
          else
            (samePlatform.get ⟨(m.currentIndex + 1) % samePlatform.length,
               Nat.mod_lt _ (List.length_pos.mpr hs)⟩,
             { m with currentIndex := m.currentIndex + 1 })
        | .roundRobin =>
          (avail.get ⟨(m.currentIndex + 1) % avail.length, Nat.mod_lt _ havail⟩,
           { m with currentIndex := m.currentIndex + 1 })
      some (step.1, recordUsage step.2 step.1)

/-- `FingerprintManager.getNextProfile` (fuel 2: at most one
blocked-set-clearing recursion is ever taken on a non-empty catalog). -/
def getNextProfile (m : ManagerState) : Option (FingerprintProfile × ManagerState) :=
  getNextProfileFuel 2 m

/-- `FingerprintManager.blockProfile`: `blockedProfiles.add(profileId)` —
note: no catalog-membership check. -/
def blockProfile (m : ManagerState) (profileId : String) : ManagerState :=
  { m with blockedProfiles :=
      if profileId ∈ m.blockedProfiles then m.blockedProfiles
      else profileId :: m.blockedProfiles }

/-- `FingerprintManager.unblockProfile`: `blockedProfiles.delete(profileId)`. -/
def unblockProfile (m : ManagerState) (profileId : String) : ManagerState :=
  { m with blockedProfiles := m.blockedProfiles.filter (fun x => x != profileId) }

/-- `FingerprintManager.resetBlockedProfiles`: `blockedProfiles.clear()`. -/
def resetBlockedProfiles (m : ManagerState) : ManagerState :=
  { m with blockedProfiles := [] }

/-! ## HTTP client (`src/lib/SunoApi.ts`, `HttpClient`) -/

/-- `pat` occurs as a prefix of `s` (helper for JS `String.prototype.includes`). -/
def charPrefix : List Char → List Char → Bool
  | [], _ => true
  | _ :: _, [] => false
  | c :: cs, d :: ds => c == d && charPrefix cs ds

/-- `pat` occurs somewhere inside `s` (helper for JS `String.prototype.includes`). -/
def charInfix (pat : List Char) : List Char → Bool
  | [] => charPrefix pat []
  | d :: ds => charPrefix pat (d :: ds) || charInfix pat ds

/-- JS `s.includes(pat)`. -/
def strIncludes (s pat : String) : Bool :=
  charInfix pat.toList s.toList

/-- An HTTP response as seen by `HttpClient.isCloudflareChallenge`:
status, response headers (a JS object, keyed case-sensitively) and the body.
The source turns a non-string (already JSON-parsed) body back into a string
with `JSON.stringify` before the substring checks, so the model carries the
body in its string form. -/
structure HttpResponse where
  status : Nat
  headers : List (String × String)
  body : String
deriving DecidableEq, Repr

/-- JS truthiness of an optional header value: `undefined` and `""` are
falsy, every other string is truthy. -/
def headerTruthy : Option String → Bool
  | none => false
  | some s => s != ""

/-- `HttpClient.isCloudflareChallenge`: status must be 403 or 503, then
either the `cf-ray` header is (truthily) present, or the `server` header
lower-cased contains `"cloudflare"`, or the body contains one of the three
known challenge-page substrings. -/
def isCloudflareChallenge (r : HttpResponse) : Bool :=
  if r.status == 403 || r.status == 503 then
    let cfRay := r.headers.lookup "cf-ray"
    let server := r.headers.lookup "server"
    if headerTruthy cfRay
        || (match server with
            | some s => strIncludes s.toLower "cloudflare"
            | none => false) then
      true
    else if strIncludes r.body "challenge-platform"
        || strIncludes r.body "cf-browser-verification"
        || strIncludes r.body "Just a moment" then
      true
    else
      false
  else
    false

/-- The part of the `HttpClient` instance state that the retry loop touches:
the shared `FingerprintManager` and the `currentProfile` field. -/
structure ClientState where
  fm : ManagerState
  currentProfile : FingerprintProfile

/-- `HttpClient.rotateFingerprint`: `currentProfile :=
fingerprintManager.getNextProfile()`.  `none` models divergence of the
underlying `getNextProfile` (empty catalog only). -/
def rotateFingerprint (cs : ClientState) : Option ClientState :=
  (getNextProfile cs.fm).map fun pm => { fm := pm.2, currentProfile := pm.1 }

/-- `HttpClient.blockCurrentProfile`: block the current profile's id in the
manager, then rotate. -/
def blockCurrentProfile (cs : ClientState) : Option ClientState :=
  rotateFingerprint { cs with fm := blockProfile cs.fm cs.currentProfile.id }

/-- The distinguished error thrown when the challenge survives the final
attempt. -/
def challengeEscalationMsg : String := "Cloudflare challenge - browser fallback required"

/-- The fallback error of the degenerate `maxRetries = 0` case, where the
loop body never runs and `lastError` is still `null`. -/
def noAttemptMsg : String := "Request failed after max retries"

/-- The `for (attempt = 1; attempt <= retries; attempt++)` body of
`HttpClient.requestWithRetry`, fuel-indexed with `fuel = retries - attempt + 1`.

The transport (`this.request`, including the network) is abstracted as
`stub : Nat → Except String HttpResponse`, applied to the attempt number;
the model assumes `config.rotateFingerprints = false` (its default), so
`request` itself performs no rotation.  The last component of the result
counts the `rotateFingerprint` invocations (one per `rotateFingerprint` or
`blockCurrentProfile` call), and `lastError` carries the JS `lastError`
variable.  Note that in the source the `throw new Error('Cloudflare
challenge - browser fallback required')` on the final attempt is raised
inside the `try`, so it is routed through the same `catch` (which stores it
in `lastError` and, the attempt bound being reached, neither rotates nor
retries) before being re-raised after the loop. -/
def requestWithRetryGo (stub : Nat → Except String HttpResponse) (retries : Nat) :
    Nat → Nat → Option String → ClientState → Nat →
    Option (Except String HttpResponse × ClientState × Nat)
  | 0, _, lastError, cs, rots => some (.error (lastError.getD noAttemptMsg), cs, rots)
  | fuel + 1, attempt, lastError, cs, rots =>
    match stub attempt with
    | .ok response =>
      if isCloudflareChallenge response then
        match blockCurrentProfile cs with
        | none => none
        | some cs' =>
          if attempt < retries then
            requestWithRetryGo stub retries fuel (attempt + 1) lastError cs' (rots + 1)
          else
            requestWithRetryGo stub retries fuel (attempt + 1)
              (some challengeEscalationMsg) cs' (rots + 1)
      else
        some (.ok response, cs, rots)
    | .error e =>
      if attempt < retries then
        match rotateFingerprint cs with
        | none => none
        | some cs' => requestWithRetryGo stub retries fuel (attempt + 1) (some e) cs' (rots + 1)
      else
        requestWithRetryGo stub retries fuel (attempt + 1) (some e) cs rots

/-- `HttpClient.requestWithRetry` over the transport stub `stub`, with
retry bound `retries`, starting from client state `cs`. -/
def requestWithRetry (stub : Nat → Except String HttpResponse) (retries : Nat)
    (cs : ClientState) : Option (Except String HttpResponse × ClientState × Nat) :=
  requestWithRetryGo stub retries retries 1 none cs 0

/-- `n`-fold iteration of `blockCurrentProfile` (for stating what a run of
`n` all-challenge attempts does to the client state). -/
def iterBlockCurrent : Nat → ClientState → Option ClientState
  | 0, cs => some cs
  | n + 1, cs => (blockCurrentProfile cs).bind (iterBlockCurrent n)

/-! ## Auth service (`src/lib/suno/AuthService.ts`) -/

/-- `TokenInfo`: the credential together with its decoded expiry,
`expiresAt` in epoch milliseconds. -/
structure TokenInfo where
  jwt : String
  expiresAt : Int
deriving DecidableEq, Repr

/-- The `AuthService` session state (`SessionState` in
`src/lib/suno/types.ts`, as used by `AuthService`): cookie map, device id,
Clerk session id `sid`, the current bearer token, and the decoded expiry
info. -/
structure SessionState where
  cookies : List (String × String)
  deviceId : String
  sid : Option String
  currentToken : Option String
  tokenInfo : Option TokenInfo
deriving DecidableEq, Repr

/-- `AuthService.isTokenValid(bufferMs = 60000)`: false without `tokenInfo`,
otherwise `Date.now() < expiresAt - bufferMs` with `Date.now()` passed in as
`now`. -/
def isTokenValid (st : SessionState) (now : Int) (bufferMs : Int) : Bool :=
  match st.tokenInfo with
  | none => false
  | some ti => now < ti.expiresAt - bufferMs

/-- `AuthService.setToken(token)`: install the token, then try to decode its
expiry claim (`jwtDecode`, abstracted as `decodeExp : String → Option Int`
yielding the `exp` claim in seconds; `none` covers a thrown decode error and
a missing or JS-falsy `decoded?.exp`, which the source's truthiness test
also skips).  On a successful decode `tokenInfo` is replaced; on a failed
decode the `catch` ignores the error and — crucially — leaves whatever
`tokenInfo` was there before. -/
def setToken (decodeExp : String → Option Int) (st : SessionState) (token : String) :
    SessionState :=
  let st := { st with currentToken := some token }
  match decodeExp token with
  | some exp => { st with tokenInfo := some { jwt := token, expiresAt := exp * 1000 } }
  | none => st

/-- Error message of a refresh attempted before `fetchSessionId`. -/
def noSidMsg : String := "Session ID is not set. Cannot refresh token."

/-- Error message of a refresh whose issuance response carried no (or an
empty, hence JS-falsy) `jwt`. -/
def noJwtMsg : String := "Failed to refresh token"

/-- `AuthService.refreshToken(force)`.  The HTTP POST to the Clerk
token-issuance endpoint is abstracted by `fetchJwt : Option String`, the
`response.body?.jwt` field of its response; `now` stands for `Date.now()`
inside the validity check.  Behaviour mirrored from the source:

* not forced and `isTokenValid()` (60 s buffer) → return
  `state.currentToken!` unchanged, no request issued (the non-null
  assertion is modelled by returning the raw `Option`);
* no `sid` → throw;
* falsy `jwt` in the response (`undefined` or `""`) → throw;
* otherwise install the token exactly like `setToken` (same tolerated
  decode failure) and return it.  The `onTokenRefresh` callback is an
  external side effect and is not modelled. -/
def refreshToken (decodeExp : String → Option Int) (fetchJwt : Option String)
    (now : Int) (force : Bool) (st : SessionState) :
    Except String (Option String × SessionState) :=
  if !force && isTokenValid st now 60000 then
    .ok (st.currentToken, st)
  else
    match st.sid with
    | none => .error noSidMsg
    | some _ =>
      match fetchJwt with
      | none => .error noJwtMsg
      | some newToken =>
        if newToken = "" then .error noJwtMsg
        else .ok (some newToken, setToken decodeExp st newToken)

/-! ## Keyed session cache (`sunoApi` in `src/lib/suno/SunoApi.ts`) -/

/-- The module-level `sunoApiCache`: cache key → the cached initialization
promise, identified by a promise id. -/
abbrev SunoCache := List (String × Nat)

/-- The cache key built by `sunoApi`:
`` `${resolvedCookie}:${config.proxy?.url || 'no-proxy'}` `` (an absent or
empty — JS-falsy — proxy url becomes `"no-proxy"`). -/
def mkCacheKey (resolvedCookie : String) (proxyUrl : Option String) : String :=
  resolvedCookie ++ ":" ++
    (match proxyUrl with
     | some u => if u = "" then "no-proxy" else u
     | none => "no-proxy")

/-- `cache.delete(key)`. -/
def cacheDelete (cache : SunoCache) (key : String) : SunoCache :=
  cache.filter (fun kv => kv.1 != key)

/-- One call of the `sunoApi` factory, at the cache-key level.  Promises are
modelled by ids: `fresh` is the id of the initialization promise a cache
miss would create (`new SunoApi(...).init()`), and `settle : Nat → Except
String Nat` gives the settled outcome of each promise id (an instance id on
fulfilment).  Returned: the awaited outcome, the cache after the call, and
the id of the promise this call awaited — so two calls that return the
same id shared one in-flight initialization.  Mirrors the source order:
look up the key; on a hit await the cached promise (cache untouched); on a
miss create the promise, `cache.set` it *before* awaiting, then await — and
on rejection `cache.delete(cacheKey)` before re-throwing. -/
def sunoApiCall (settle : Nat → Except String Nat) (fresh : Nat)
    (cache : SunoCache) (key : String) :
    Except String Nat × SunoCache × Nat :=
  match cache.lookup key with
  | some pid => (settle pid, cache, pid)
  | none =>
    let pid := fresh
    let cache' := (key, pid) :: cache
    match settle pid with
    | .ok inst => (.ok inst, cache', pid)
    | .error e => (.error e, cacheDelete cache' key, pid)

/-! ## Helper lemmas -/

/-- An optional-header match is true exactly when the header is present with
a matching value. -/
theorem matchOpt_eq_true_iff (o : Option String) (f : String → Bool) :
    (match o with | some s => f s | none => false) = true ↔
      ∃ s, o = some s ∧ f s = true := by
  cases o <;> simp

/-- `isCloudflareChallenge` as one boolean formula (collapsing the source's
early-return `if` cascade). -/
theorem isCloudflareChallenge_eq (r : HttpResponse) :
    isCloudflareChallenge r =
      ((r.status == 403 || r.status == 503) &&
        (headerTruthy (r.headers.lookup "cf-ray")
          || (match r.headers.lookup "server" with
              | some s => strIncludes s.toLower "cloudflare"
              | none => false)
          || strIncludes r.body "challenge-platform"
          || strIncludes r.body "cf-browser-verification"
          || strIncludes r.body "Just a moment")) := by
  unfold isCloudflareChallenge
  cases h1 : (r.status == 403 || r.status == 503)
  · simp
  · rcases hsv : r.headers.lookup "server" with _ | s
    · cases h2 : headerTruthy (r.headers.lookup "cf-ray") <;>
        simp only [hsv, h2] <;>
        cases hb1 : strIncludes r.body "challenge-platform" <;>
          cases hb2 : strIncludes r.body "cf-browser-verification" <;>
            cases hb3 : strIncludes r.body "Just a moment" <;>
              simp [hb1, hb2, hb3]
    · cases h2 : headerTruthy (r.headers.lookup "cf-ray") <;>
        cases hcl : strIncludes s.toLower "cloudflare" <;>
          simp only [hsv, h2, hcl] <;>
          cases hb1 : strIncludes r.body "challenge-platform" <;>
            cases hb2 : strIncludes r.body "cf-browser-verification" <;>
              cases hb3 : strIncludes r.body "Just a moment" <;>
                simp [hb1, hb2, hb3]

/-- Deleting a key removes it from lookup. -/
theorem lookup_cacheDelete (cache : SunoCache) (key : String) :
    (cacheDelete cache key).lookup key = none := by
  induction cache with
  | nil => rfl
  | cons kv rest ih =>
    by_cases h : kv.1 = key
    · simpa [cacheDelete, h] using ih
    · simpa [cacheDelete, List.lookup, bne_iff_ne, h,
        show (key == kv.1) = false from beq_false_of_ne (Ne.symm h)] using ih

/-- A key that is absent is untouched by `cacheDelete`. -/
theorem cacheDelete_of_lookup_none (cache : SunoCache) (key : String)
    (h : cache.lookup key = none) : cacheDelete cache key = cache := by
  induction cache with
  | nil => rfl
  | cons kv rest ih =>
    rcases kv with ⟨a, v⟩
    by_cases ha : key = a
    · subst ha
      simp [List.lookup] at h
    · rw [List.lookup] at h
      rw [show (key == a) = false from beq_false_of_ne ha] at h
      simp only [cacheDelete, List.filter] at ih ⊢
      rw [show (a != key) = true from bne_iff_ne.mpr (Ne.symm ha)]
      simpa [cacheDelete] using congrArg (List.cons (a, v)) (ih h)

/-! ## C7 — token validity boundary -/

/-- C7: `isValid(buffer)` is true exactly when `tokenInfo` is present and
`now < expiresAt − buffer`; hence it is false when `tokenInfo` is absent,
false at `now = expiresAt − buffer` (exclusive boundary), and true strictly
below it. -/
theorem isTokenValid_boundary_iff (st : SessionState) (now bufferMs : Int) :
    isTokenValid st now bufferMs = true ↔
      ∃ ti, st.tokenInfo = some ti ∧ now < ti.expiresAt - bufferMs := by
  cases h : st.tokenInfo with
  | none => simp [isTokenValid, h]
  | some ti => simp [isTokenValid, h]

/-! ## C2 — challenge classifier -/

/-- Modelled from the spec's words (§4.2/§8): the anti-bot challenge
signature — HTTP 403 or 503, AND (a rate-limit/CDN marker header present:
a truthy `cf-ray`, or a `server` header naming cloudflare — OR the body
containing one of the known challenge-page substrings).  To be compared
against the source-derived `isCloudflareChallenge`. -/
def challengeSignatureSpec (r : HttpResponse) : Prop :=
  (r.status = 403 ∨ r.status = 503) ∧
  ((headerTruthy (r.headers.lookup "cf-ray") = true ∨
      (∃ s, r.headers.lookup "server" = some s ∧
        strIncludes s.toLower "cloudflare" = true)) ∨
    (strIncludes r.body "challenge-platform" = true ∨
     strIncludes r.body "cf-browser-verification" = true ∨
     strIncludes r.body "Just a moment" = true))

/-- C2: the classifier returns true iff the status is 403 or 503 AND (a
marker header is present OR the body contains a known challenge substring);
in particular status 503 with a marker header is always a challenge, and
status 200 is never one whatever the headers and body. -/
theorem isCloudflareChallenge_signature_iff :
    (∀ r, isCloudflareChallenge r = true ↔ challengeSignatureSpec r) ∧
    (∀ hs b, isCloudflareChallenge
        { status := 503, headers := ("cf-ray", "8a1b2c3d") :: hs, body := b } = true) ∧
    (∀ hs b, isCloudflareChallenge { status := 200, headers := hs, body := b } = false) := by
  refine ⟨fun r => ?_, fun hs b => ?_, fun hs b => ?_⟩
  · rw [isCloudflareChallenge_eq]
    simp only [challengeSignatureSpec, Bool.and_eq_true, Bool.or_eq_true, beq_iff_eq,
      matchOpt_eq_true_iff]
    aesop
  · rw [isCloudflareChallenge_eq]
    simp [List.lookup, headerTruthy]
  · rw [isCloudflareChallenge_eq]
    simp

/-! ## C10 — keyed session cache -/

/-- C10: for a key already in the cache, the factory returns that same
cached promise and starts no new initialization; for a fresh key whose
initialization fails, the error propagates with the cache entry already
removed (the cache is exactly as before the call), so the next call with
the same key awaits a brand-new promise instead of a cached rejection. -/
theorem sunoApi_cache_share_and_evict (settle : Nat → Except String Nat) (fresh : Nat)
    (cache : SunoCache) (key : String) :
    (∀ pid, cache.lookup key = some pid →
        sunoApiCall settle fresh cache key = (settle pid, cache, pid)) ∧
    (cache.lookup key = none →
      (∀ inst, settle fresh = .ok inst →
          sunoApiCall settle fresh cache key = (.ok inst, (key, fresh) :: cache, fresh)) ∧
      (∀ e, settle fresh = .error e →
          sunoApiCall settle fresh cache key = (.error e, cache, fresh) ∧
          ∀ settle' fresh', (sunoApiCall settle' fresh' cache key).2.2 = fresh')) := by
  refine ⟨fun pid hpid => ?_, fun hmiss => ⟨fun inst hok => ?_, fun e herr => ⟨?_, ?_⟩⟩⟩
  · simp [sunoApiCall, hpid]
  · simp [sunoApiCall, hmiss, hok]
  · have hdel : cacheDelete ((key, fresh) :: cache) key = cache := by
      have h1 : cacheDelete ((key, fresh) :: cache) key = cacheDelete cache key := by
        simp [cacheDelete]
      rw [h1, cacheDelete_of_lookup_none cache key hmiss]
    simp [sunoApiCall, hmiss, herr, hdel]
  · intro settle' fresh'
    rcases h' : settle' fresh' with e' | inst' <;> simp [sunoApiCall, hmiss, h']

/-! ## C5 — decode-failure handling (corrected) -/

/-- A decode stub on which every token fails to yield an expiry claim. -/
def decodeNone : String → Option Int := fun _ => none

/-- A session that already holds a successfully decoded token `tok1`. -/
def c5State : SessionState :=
  { cookies := [], deviceId := "device-1", sid := some "sess_1",
    currentToken := some "tok1",
    tokenInfo := some { jwt := "tok1", expiresAt := 10000000 } }

/-- C5 counterexample: install a token whose expiry claim does not decode
into a session that already tracked an earlier token.  Contrary to the
claim, the session still trusts the *previous* token's expiry: `tokenInfo`
is left pointing at `tok1`, `isValid` reports `true` (not `false`), and the
next non-forced refresh returns the cached `tok2` without fetching (the
issuance stub is `none`, which would have raised had the fetch path been
taken). -/
theorem tokenInfo_decode_failure_counterexample :
    (setToken decodeNone c5State "tok2").currentToken = some "tok2" ∧
    (setToken decodeNone c5State "tok2").tokenInfo =
      some { jwt := "tok1", expiresAt := 10000000 } ∧
    isTokenValid (setToken decodeNone c5State "tok2") 0 60000 = true ∧
    refreshToken decodeNone none 0 false (setToken decodeNone c5State "tok2") =
      .ok (some "tok2", setToken decodeNone c5State "tok2") :=
  ⟨rfl, rfl, rfl, rfl⟩

/-- C5 amended: a failed expiry decode leaves `tokenInfo` exactly as it was
before the installation.  Consequently the claim holds only when no earlier
expiry had been decoded: if `tokenInfo` was absent before the install, it is
still absent afterwards, `isValid` is false for every clock and buffer, and
the next non-forced refresh takes the fetch path (raising the distinguished
no-token error when the issuance endpoint yields nothing, instead of
returning the cached token). -/
theorem tokenInfo_decode_failure_amended (decodeExp : String → Option Int)
    (st : SessionState) (tok : String) (hdec : decodeExp tok = none) :
    (setToken decodeExp st tok).tokenInfo = st.tokenInfo ∧
    (st.tokenInfo = none →
      (∀ now buf, isTokenValid (setToken decodeExp st tok) now buf = false) ∧
      (∀ now sid0, st.sid = some sid0 →
        refreshToken decodeExp none now false (setToken decodeExp st tok) =
          .error noJwtMsg)) := by
  have hset : (setToken decodeExp st tok).tokenInfo = st.tokenInfo := by
    simp [setToken, hdec]
  refine ⟨hset, fun hnone => ⟨fun now buf => ?_, fun now sid0 hsid => ?_⟩⟩
  · simp [isTokenValid, hset, hnone]
  · have hsid' : (setToken decodeExp st tok).sid = some sid0 := by
      simp [setToken, hdec, hsid]
    simp [refreshToken, isTokenValid, hset, hnone, hsid']

/-- A session with no tracked expiry and a known Clerk session id. -/
def c5FreshState : SessionState :=
  { cookies := [], deviceId := "device-2", sid := some "sess_2",
    currentToken := none, tokenInfo := none }

/-- Witness for the amended C5 theorem at a concrete session. -/
theorem tokenInfo_decode_failure_amended_witness :
    decodeNone "tok9" = none ∧
    ((setToken decodeNone c5FreshState "tok9").tokenInfo = c5FreshState.tokenInfo ∧
      (c5FreshState.tokenInfo = none →
        (∀ now buf, isTokenValid (setToken decodeNone c5FreshState "tok9") now buf = false) ∧
        (∀ now sid0, c5FreshState.sid = some sid0 →
          refreshToken decodeNone none now false (setToken decodeNone c5FreshState "tok9") =
            .error noJwtMsg))) :=
  ⟨rfl, tokenInfo_decode_failure_amended decodeNone c5FreshState "tok9" rfl⟩

/-! ## C6 — blocked-set subset invariant (corrected) -/

/-- The manager built by `getFingerprintManager()` with all defaults:
default catalog, round-robin, no preferred platform. -/
def defaultManager : ManagerState := mkManager none none none (fun _ => 0)

/-- C6 counterexample: `blockProfile` performs no catalog-membership check,
so blocking an id that names no catalog profile leaves a non-catalog id in
`blockedProfiles`, falsifying the subset invariant as claimed. -/
theorem blockedProfiles_subset_counterexample :
    "ghost-profile" ∈ (blockProfile defaultManager "ghost-profile").blockedProfiles ∧
    "ghost-profile" ∉ defaultManager.profiles.map FingerprintProfile.id := by
  constructor
  · simp [blockProfile, defaultManager, mkManager]
  · decide

/-! ## Availability and rotation-step lemmas -/

/-- With nothing blocked and no platform preference, the available set is
the whole catalog. -/
theorem availableProfiles_all (m : ManagerState) (hb : m.blockedProfiles = [])
    (hpf : m.preferredPlatform = none) : availableProfiles m = m.profiles := by
  unfold availableProfiles
  rw [hb, hpf]
  simp

/-- With nothing blocked, a non-empty catalog always leaves the available
set non-empty (the platform narrowing only applies when it keeps a
candidate). -/
theorem availableProfiles_ne_nil (m : ManagerState) (hb : m.blockedProfiles = [])
    (hp : m.profiles ≠ []) : availableProfiles m ≠ [] := by
  unfold availableProfiles
  rw [hb]
  have hfull : m.profiles.filter (fun p => !(List.contains [] p.id)) = m.profiles := by
    simp
  rw [hfull]
  rcases m.preferredPlatform with _ | pf
  · exact hp
  · simp only
    split
    · next hlen => exact List.length_pos.mp hlen
    · exact hp

/-- When the available set is non-empty, `getNextProfile` (at any positive
fuel) succeeds and only moves the cursor / usage counters / random cursor:
catalog, strategy, platform preference and blocked set are untouched. -/
theorem getNextProfileFuel_cons_some (fuel : Nat) (m : ManagerState)
    (a : FingerprintProfile) (as : List FingerprintProfile)
    (hava : availableProfiles m = a :: as) :
    ∃ p m', getNextProfileFuel (fuel + 1) m = some (p, m') ∧
      m'.profiles = m.profiles ∧ m'.strategy = m.strategy ∧
      m'.preferredPlatform = m.preferredPlatform ∧
      m'.blockedProfiles = m.blockedProfiles := by
  unfold getNextProfileFuel
  rw [hava]
  rcases hstrat : m.strategy with _ | _ | _ | _ <;> simp only [hstrat]
  · exact ⟨_, _, rfl, rfl, rfl, rfl, rfl⟩
  · exact ⟨_, _, rfl, rfl, rfl, rfl, rfl⟩
  · exact ⟨_, _, rfl, rfl, hstrat, rfl, rfl⟩
  · split
    · exact ⟨_, _, rfl, rfl, rfl, rfl, rfl⟩
    · exact ⟨_, _, rfl, rfl, rfl, rfl, rfl⟩

/-- Whatever `getNextProfileFuel` returns keeps the catalog, strategy and
platform preference, and either keeps or clears the blocked set. -/
theorem getNextProfileFuel_shape (fuel : Nat) (m : ManagerState)
    (p : FingerprintProfile) (m' : ManagerState)
    (h : getNextProfileFuel fuel m = some (p, m')) :
    m'.profiles = m.profiles ∧ m'.strategy = m.strategy ∧
    m'.preferredPlatform = m.preferredPlatform ∧
    (m'.blockedProfiles = m.blockedProfiles ∨ m'.blockedProfiles = []) := by
  induction fuel generalizing m with
  | zero => simp [getNextProfileFuel] at h
  | succ fuel ih =>
    rcases hava : availableProfiles m with _ | ⟨a, as⟩
    · rw [getNextProfileFuel, hava] at h
      rcases ih _ h with ⟨h1, h2, h3, h4⟩
      refine ⟨h1, h2, h3, Or.inr ?_⟩
      rcases h4 with h4 | h4 <;> simpa using h4
    · obtain ⟨p₀, m₀, hsome, hprof, hstrat, hpf, hblk⟩ :=
        getNextProfileFuel_cons_some fuel m a as hava
      rw [hsome] at h
      injection h with hpair
      injection hpair with hp hm
      subst hp hm
      exact ⟨hprof, hstrat, hpf, Or.inl hblk⟩

/-- On a non-empty catalog `getNextProfile` always succeeds and keeps the
catalog. -/
theorem getNextProfile_total (m : ManagerState) (hp : m.profiles ≠ []) :
    ∃ p m', getNextProfile m = some (p, m') ∧ m'.profiles = m.profiles := by
  unfold getNextProfile
  rcases hava : availableProfiles m with _ | ⟨a, as⟩
  · have hne := availableProfiles_ne_nil { m with blockedProfiles := [] } rfl hp
    rcases hava2 : availableProfiles { m with blockedProfiles := [] } with _ | ⟨a, as⟩
    · exact absurd hava2 hne
    · obtain ⟨p, m', hsome, hprof, -, -, -⟩ := getNextProfileFuel_cons_some 0 _ a as hava2
      refine ⟨p, m', ?_, hprof⟩
      rw [getNextProfileFuel, hava]
      exact hsome
  · obtain ⟨p, m', hsome, hprof, -, -, -⟩ := getNextProfileFuel_cons_some 1 m a as hava
    exact ⟨p, m', hsome, hprof⟩

/-- `getCurrentProfile` keeps the catalog and either keeps or clears the
blocked set. -/
theorem getCurrentProfile_shape (m : ManagerState) :
    (getCurrentProfile m).2.profiles = m.profiles ∧
    ((getCurrentProfile m).2.blockedProfiles = m.blockedProfiles ∨
      (getCurrentProfile m).2.blockedProfiles = []) := by
  by_cases hava : availableProfiles m = [] <;> simp [getCurrentProfile, hava]

/-! ## C4 — auto-reset totality -/

/-- C4: on any non-empty catalog, `current()` and `next()` both return a
profile without error, whatever the rotation state; and when the available
set is empty (everything blocked), the blocked set is cleared before a
profile is returned — by `current()` (which hands back the default profile
with the blocked set wiped) and by `next()` (whose result state has an
empty blocked set), so the pool never reports zero available identities. -/
theorem pool_auto_reset_total (m : ManagerState) (hp : m.profiles ≠ []) :
    (∃ r, getNextProfile m = some r) ∧
    (availableProfiles m = [] →
      getCurrentProfile m = (DEFAULT_PROFILE, { m with blockedProfiles := [] }) ∧
      ∃ p m', getNextProfile m = some (p, m') ∧ m'.blockedProfiles = []) := by
  constructor
  · obtain ⟨p, m', hsome, -⟩ := getNextProfile_total m hp
    exact ⟨(p, m'), hsome⟩
  · intro hava
    constructor
    · unfold getCurrentProfile
      simp [hava]
    · have hne := availableProfiles_ne_nil { m with blockedProfiles := [] } rfl hp
      rcases hava2 : availableProfiles { m with blockedProfiles := [] } with _ | ⟨a, as⟩
      · exact absurd hava2 hne
      · obtain ⟨p, m', hsome, -, -, -, hblk⟩ := getNextProfileFuel_cons_some 0 _ a as hava2
        refine ⟨p, m', ?_, by simpa using hblk⟩
        unfold getNextProfile
        rw [getNextProfileFuel, hava]
        exact hsome

/-- The default manager with its whole catalog blocked. -/
def c4Blocked : ManagerState :=
  { defaultManager with blockedProfiles := defaultManager.profiles.map FingerprintProfile.id }

/-- Witness: the default manager with its whole catalog blocked still hands
out profiles. -/
theorem pool_auto_reset_total_witness :
    c4Blocked.profiles ≠ [] ∧
    ((∃ r, getNextProfile c4Blocked = some r) ∧
      (availableProfiles c4Blocked = [] →
        getCurrentProfile c4Blocked =
          (DEFAULT_PROFILE, { c4Blocked with blockedProfiles := [] }) ∧
        ∃ p m', getNextProfile c4Blocked = some (p, m') ∧ m'.blockedProfiles = [])) :=
  ⟨by decide, pool_auto_reset_total c4Blocked (by decide)⟩

/-! ## C6 amended — blocked set stays inside the catalog under catalog-only blocks -/

/-- The public mutating surface of the pool, for stating reachable-state
invariants: `blockProfile`, `unblockProfile`, `resetBlockedProfiles`,
`getNextProfile`, `getCurrentProfile`. -/
inductive PoolOp where
  | block (profileId : String)
  | unblock (profileId : String)
  | reset
  | next
  | current

/-- Apply one pool operation (`next` can diverge on an empty catalog,
hence `Option`). -/
def applyOp (m : ManagerState) : PoolOp → Option ManagerState
  | .block profileId => some (blockProfile m profileId)
  | .unblock profileId => some (unblockProfile m profileId)
  | .reset => some (resetBlockedProfiles m)
  | .next => (getNextProfile m).map Prod.snd
  | .current => some (getCurrentProfile m).2

/-- Apply a sequence of pool operations. -/
def applyOps (m : ManagerState) : List PoolOp → Option ManagerState
  | [] => some m
  | op :: ops => (applyOp m op).bind fun m' => applyOps m' ops

/-- The ids passed to `block` operations in a trace. -/
def blockArgs : List PoolOp → List String
  | [] => []
  | .block profileId :: ops => profileId :: blockArgs ops
  | _ :: ops => blockArgs ops

/-- C6 amended: `blockProfile` adds its argument unconditionally, so the
subset invariant is conditional on the blocked ids coming from the catalog.
For every operation trace whose `block` arguments are catalog ids, starting
from a state whose blocked set is inside the catalog, the catalog is
unchanged and the blocked set stays a subset of the catalog ids.  (The
unconditional form of the claim is refuted by
the non-catalog block in the counterexample.) -/
theorem blockedProfiles_subset_amended (ops : List PoolOp) (m m' : ManagerState)
    (hinv : ∀ x ∈ m.blockedProfiles, x ∈ m.profiles.map FingerprintProfile.id)
    (hops : ∀ pid ∈ blockArgs ops, pid ∈ m.profiles.map FingerprintProfile.id)
    (happ : applyOps m ops = some m') :
    m'.profiles = m.profiles ∧
    ∀ x ∈ m'.blockedProfiles, x ∈ m'.profiles.map FingerprintProfile.id := by
  induction ops generalizing m with
  | nil =>
    rcases Option.some.inj happ with h'
    exact h' ▸ ⟨rfl, hinv⟩
  | cons op ops ih =>
    rcases op with pid | pid | _ | _ | _
    · simp only [applyOps, applyOp, Option.some_bind] at happ
      have hmem : pid ∈ m.profiles.map FingerprintProfile.id :=
        hops pid (by simp [blockArgs])
      have hinv' : ∀ x ∈ (blockProfile m pid).blockedProfiles,
          x ∈ (blockProfile m pid).profiles.map FingerprintProfile.id := by
        intro x hx
        rw [blockProfile] at hx
        split at hx
        · exact hinv x hx
        · rcases List.mem_cons.mp hx with h | h
          · exact h ▸ hmem
          · exact hinv x h
      have hops' : ∀ q ∈ blockArgs ops, q ∈ (blockProfile m pid).profiles.map
          FingerprintProfile.id := by
        intro q hq
        exact hops q (by simp [blockArgs, hq])
      exact ih (blockProfile m pid) hinv' hops' happ
    · simp only [applyOps, applyOp, Option.some_bind] at happ
      have hinv' : ∀ x ∈ (unblockProfile m pid).blockedProfiles,
          x ∈ (unblockProfile m pid).profiles.map FingerprintProfile.id := by
        intro x hx
        exact hinv x (List.mem_of_mem_filter hx)
      have hops' : ∀ q ∈ blockArgs ops, q ∈ (unblockProfile m pid).profiles.map
          FingerprintProfile.id := by
        intro q hq
        exact hops q (by simp [blockArgs, hq])
      exact ih (unblockProfile m pid) hinv' hops' happ
    · simp only [applyOps, applyOp, Option.some_bind] at happ
      have hops' : ∀ q ∈ blockArgs ops, q ∈ (resetBlockedProfiles m).profiles.map
          FingerprintProfile.id := by
        intro q hq
        exact hops q (by simp [blockArgs, hq])
      exact ih (resetBlockedProfiles m)
        (by intro x hx; simp [resetBlockedProfiles] at hx) hops' happ
    · simp only [applyOps, applyOp] at happ
      rcases hnext : getNextProfile m with _ | ⟨p, m1⟩
      · rw [hnext] at happ
        cases happ
      · rw [hnext] at happ
        simp only [Option.map_some', Option.some_bind] at happ
        obtain ⟨hprof, -, -, hblk⟩ := getNextProfileFuel_shape 2 m p m1 hnext
        have hinv1 : ∀ x ∈ m1.blockedProfiles,
            x ∈ m1.profiles.map FingerprintProfile.id := by
          intro x hx
          rcases hblk with hb | hb
          · exact hprof ▸ hinv x (hb ▸ hx)
          · rw [hb] at hx
            cases hx
        have hops1 : ∀ q ∈ blockArgs ops, q ∈ m1.profiles.map FingerprintProfile.id := by
          intro q hq
          rw [hprof]
          exact hops q (by simp [blockArgs, hq])
        obtain ⟨h1, h2⟩ := ih m1 hinv1 hops1 happ
        exact ⟨h1.trans hprof, h2⟩
    · simp only [applyOps, applyOp, Option.some_bind] at happ
      obtain ⟨hprof, hblk⟩ := getCurrentProfile_shape m
      have hinv1 : ∀ x ∈ (getCurrentProfile m).2.blockedProfiles,
          x ∈ (getCurrentProfile m).2.profiles.map FingerprintProfile.id := by
        intro x hx
        rcases hblk with hb | hb
        · exact hprof ▸ hinv x (hb ▸ hx)
        · rw [hb] at hx
          cases hx
      have hops1 : ∀ q ∈ blockArgs ops, q ∈ (getCurrentProfile m).2.profiles.map
          FingerprintProfile.id := by
        intro q hq
        rw [hprof]
        exact hops q (by simp [blockArgs, hq])
      obtain ⟨h1, h2⟩ := ih (getCurrentProfile m).2 hinv1 hops1 happ
      exact ⟨h1.trans hprof, h2⟩

/-- A short trace for the amended C6 theorem: block a catalog profile,
reset, block another catalog profile. -/
def c6Ops : List PoolOp :=
  [.block "pixel8-chrome130", .reset, .block "galaxy-s24-chrome130"]

/-- The state that trace reaches from the default manager. -/
def c6Final : ManagerState :=
  { defaultManager with blockedProfiles := ["galaxy-s24-chrome130"] }

/-- Witness for the amended C6 theorem on a concrete catalog-only trace. -/
theorem blockedProfiles_subset_amended_witness :
    (∀ x ∈ defaultManager.blockedProfiles,
        x ∈ defaultManager.profiles.map FingerprintProfile.id) ∧
    (∀ pid ∈ blockArgs c6Ops, pid ∈ defaultManager.profiles.map FingerprintProfile.id) ∧
    applyOps defaultManager c6Ops = some c6Final ∧
    (c6Final.profiles = defaultManager.profiles ∧
      ∀ x ∈ c6Final.blockedProfiles, x ∈ c6Final.profiles.map FingerprintProfile.id) :=
  ⟨by decide, by decide, rfl,
    blockedProfiles_subset_amended c6Ops defaultManager c6Final (by decide) (by decide) rfl⟩

/-- A settlement oracle for the C10 witness: promise 3 fulfils, everything
else rejects. -/
def settleW : Nat → Except String Nat := fun pid => if pid = 3 then .ok 7 else .error "boom"

/-- Witness for the C10 theorem: a cache miss whose initialization fails
leaves the cache clean, and the next call awaits a fresh promise. -/
theorem sunoApi_cache_share_and_evict_witness :
    (([] : SunoCache).lookup "cookie:no-proxy" = none ∧ settleW 5 = .error "boom") ∧
    (sunoApiCall settleW 5 [] "cookie:no-proxy" = (.error "boom", [], 5) ∧
      ∀ settle' fresh', (sunoApiCall settle' fresh' [] "cookie:no-proxy").2.2 = fresh') :=
  ⟨⟨rfl, rfl⟩,
    ((sunoApi_cache_share_and_evict settleW 5 [] "cookie:no-proxy").2 rfl).2 "boom" rfl⟩

/-! ## Retry-loop lemmas -/

/-- On a non-empty catalog `rotateFingerprint` succeeds and keeps the
catalog. -/
theorem rotateFingerprint_total (cs : ClientState) (hp : cs.fm.profiles ≠ []) :
    ∃ cs', rotateFingerprint cs = some cs' ∧ cs'.fm.profiles = cs.fm.profiles := by
  obtain ⟨p, m', hsome, hprof⟩ := getNextProfile_total cs.fm hp
  exact ⟨{ fm := m', currentProfile := p }, by simp [rotateFingerprint, hsome], hprof⟩

/-- On a non-empty catalog `blockCurrentProfile` succeeds and keeps the
catalog. -/
theorem blockCurrentProfile_total (cs : ClientState) (hp : cs.fm.profiles ≠ []) :
    ∃ cs', blockCurrentProfile cs = some cs' ∧ cs'.fm.profiles = cs.fm.profiles := by
  obtain ⟨cs', hsome, hprof⟩ :=
    rotateFingerprint_total { cs with fm := blockProfile cs.fm cs.currentProfile.id } hp
  exact ⟨cs', hsome, hprof⟩

/-- A run of throwing attempts followed by a non-challenge success: each
throw with attempts remaining rotates once, the success returns
immediately. -/
theorem requestWithRetryGo_ok (stub : Nat → Except String HttpResponse)
    (retries K : Nat) (err : Nat → String) (resp : HttpResponse)
    (hchal : isCloudflareChallenge resp = false)
    (hK : stub (K + 1) = .ok resp)
    (hKretries : K + 1 ≤ retries) :
    ∀ fuel attempt lastError cs rots,
      attempt + fuel = retries + 1 →
      attempt ≤ K + 1 →
      (∀ i, attempt ≤ i → i ≤ K → stub i = .error (err i)) →
      cs.fm.profiles ≠ [] →
      ∃ cs', requestWithRetryGo stub retries fuel attempt lastError cs rots =
          some (.ok resp, cs', rots + (K + 1 - attempt)) ∧
        cs'.fm.profiles = cs.fm.profiles := by
  intro fuel
  induction fuel with
  | zero =>
    intro attempt lastError cs rots hsum hle hstub hp
    omega
  | succ fuel ih =>
    intro attempt lastError cs rots hsum hle hstub hp
    by_cases hA : attempt = K + 1
    · subst hA
      refine ⟨cs, ?_, rfl⟩
      rw [requestWithRetryGo, hK]
      simp [hchal]
    · have hattK : attempt ≤ K := by omega
      have herr : stub attempt = .error (err attempt) := hstub attempt le_rfl hattK
      have hattlt : attempt < retries := by omega
      obtain ⟨cs1, hrot, hprof1⟩ := rotateFingerprint_total cs hp
      obtain ⟨cs', hrec, hprof2⟩ :=
        ih (attempt + 1) (some (err attempt)) cs1 (rots + 1) (by omega) (by omega)
          (fun i h1 h2 => hstub i (by omega) h2) (by rw [hprof1]; exact hp)
      refine ⟨cs', ?_, hprof2.trans hprof1⟩
      rw [requestWithRetryGo, herr]
      dsimp only
      rw [if_pos hattlt, hrot]
      dsimp only
      rw [hrec]
      have harith : rots + 1 + (K + 1 - (attempt + 1)) = rots + (K + 1 - attempt) := by omega
      rw [harith]

/-- A run in which every remaining attempt throws: rotation happens exactly
once per non-final attempt and the final attempt's error is re-raised. -/
theorem requestWithRetryGo_allError (stub : Nat → Except String HttpResponse)
    (retries : Nat) (err : Nat → String)
    (hstub : ∀ i, 1 ≤ i → i ≤ retries → stub i = .error (err i)) :
    ∀ fuel attempt lastError cs rots,
      attempt + fuel = retries + 1 →
      1 ≤ attempt → attempt ≤ retries →
      cs.fm.profiles ≠ [] →
      ∃ cs', requestWithRetryGo stub retries fuel attempt lastError cs rots =
          some (.error (err retries), cs', rots + (retries - attempt)) ∧
        cs'.fm.profiles = cs.fm.profiles := by
  intro fuel
  induction fuel with
  | zero =>
    intro attempt lastError cs rots hsum h1 hle hp
    omega
  | succ fuel ih =>
    intro attempt lastError cs rots hsum h1 hle hp
    have herr : stub attempt = .error (err attempt) := hstub attempt h1 hle
    by_cases hattlt : attempt < retries
    · obtain ⟨cs1, hrot, hprof1⟩ := rotateFingerprint_total cs hp
      obtain ⟨cs', hrec, hprof2⟩ :=
        ih (attempt + 1) (some (err attempt)) cs1 (rots + 1) (by omega) (by omega) (by omega)
          (by rw [hprof1]; exact hp)
      refine ⟨cs', ?_, hprof2.trans hprof1⟩
      rw [requestWithRetryGo, herr]
      dsimp only
      rw [if_pos hattlt, hrot]
      dsimp only
      rw [hrec]
      have harith : rots + 1 + (retries - (attempt + 1)) = rots + (retries - attempt) := by
        omega
      rw [harith]
    · have hatt : attempt = retries := by omega
      have hfuel : fuel = 0 := by omega
      subst hatt hfuel
      refine ⟨cs, ?_, rfl⟩
      rw [requestWithRetryGo, herr]
      dsimp only
      rw [if_neg hattlt, requestWithRetryGo]
      simp [Option.getD]

/-! ## C1 — retry/rotation contract against a throwing transport stub -/

/-- C1: against a transport stub that throws on attempts `1..K` and
succeeds (with a non-challenge response) on attempt `K+1`, for any retry
bound `R ≥ 1`: if `K < R` the call returns the success response after
exactly `K` identity rotations; if `K ≥ R` the call raises the attempt-`R`
error (the last one thrown) after exactly `R − 1` rotations — no rotation
after the final attempt. -/
theorem requestWithRetry_stub_retry_contract (R K : Nat) (err : Nat → String)
    (resp : HttpResponse) (cs : ClientState)
    (hR : 1 ≤ R) (hp : cs.fm.profiles ≠ [])
    (hchal : isCloudflareChallenge resp = false)
    (stub : Nat → Except String HttpResponse)
    (hfail : ∀ i, 1 ≤ i → i ≤ K → stub i = .error (err i))
    (hsucc : stub (K + 1) = .ok resp) :
    (K < R → ∃ cs', requestWithRetry stub R cs = some (.ok resp, cs', K)) ∧
    (R ≤ K → ∃ cs', requestWithRetry stub R cs = some (.error (err R), cs', R - 1)) := by
  constructor
  · intro hKR
    obtain ⟨cs', hgo, -⟩ :=
      requestWithRetryGo_ok stub R K err resp hchal hsucc (by omega) R 1 none cs 0
        (by omega) (by omega) (fun i h1 h2 => hfail i h1 h2) hp
    refine ⟨cs', ?_⟩
    rw [requestWithRetry, hgo]
    have harith : 0 + (K + 1 - 1) = K := by omega
    rw [harith]
  · intro hRK
    obtain ⟨cs', hgo, -⟩ :=
      requestWithRetryGo_allError stub R err
        (fun i h1 h2 => hfail i h1 (le_trans h2 hRK)) R 1 none cs 0
        (by omega) le_rfl hR hp
    refine ⟨cs', ?_⟩
    rw [requestWithRetry, hgo]
    have harith : 0 + (R - 1) = R - 1 := by omega
    rw [harith]

/-- A stub that throws on attempt 1 and succeeds from attempt 2 on. -/
def stubW : Nat → Except String HttpResponse :=
  fun i => if i ≤ 1 then .error "network down" else .ok { status := 200, headers := [], body := "ok" }

/-- The client state backed by the default manager. -/
def csW : ClientState := { fm := defaultManager, currentProfile := DEFAULT_PROFILE }

/-- Witness for C1: bound 3, one throw then success, exactly one rotation. -/
theorem requestWithRetry_stub_retry_contract_witness :
    ((1 : Nat) ≤ 3 ∧ csW.fm.profiles ≠ [] ∧
      isCloudflareChallenge { status := 200, headers := [], body := "ok" } = false ∧
      (1 : Nat) < 3) ∧
    ∃ cs', requestWithRetry stubW 3 csW =
        some (.ok { status := 200, headers := [], body := "ok" }, cs', 1) :=
  ⟨⟨by decide, by decide, by decide, by decide⟩,
    (requestWithRetry_stub_retry_contract 3 1 (fun _ => "network down")
        { status := 200, headers := [], body := "ok" } csW (by decide) (by decide)
        (by decide) stubW
        (fun i h1 h2 => by
          have hi : i = 1 := Nat.le_antisymm h2 h1
          subst hi
          rfl)
        rfl).1 (by decide)⟩

/-! ## C3 — challenge responses are never returned -/

/-- No successful return of the retry loop is a challenge response: the
`.ok` exit is taken only after the classifier said no. -/
theorem requestWithRetryGo_no_challenge (stub : Nat → Except String HttpResponse)
    (retries : Nat) :
    ∀ fuel attempt lastError cs rots res cs' rots',
      requestWithRetryGo stub retries fuel attempt lastError cs rots =
        some (res, cs', rots') →
      ∀ resp, res = .ok resp → isCloudflareChallenge resp = false := by
  intro fuel
  induction fuel with
  | zero =>
    intro attempt lastError cs rots res cs' rots' h resp hres
    rw [requestWithRetryGo] at h
    injection h with hpair
    injection hpair with h1 h2
    rw [← h1] at hres
    cases hres
  | succ fuel ih =>
    intro attempt lastError cs rots res cs' rots' h resp hres
    rw [requestWithRetryGo] at h
    cases hstub : stub attempt with
    | ok response =>
      rw [hstub] at h
      dsimp only at h
      cases hch : isCloudflareChallenge response with
      | false =>
        rw [hch] at h
        simp only [Bool.false_eq_true, if_false] at h
        injection h with hpair
        injection hpair with h1 h2
        rw [← h1] at hres
        injection hres with hr
        rw [← hr]
        exact hch
      | true =>
        rw [hch] at h
        simp only [if_true] at h
        cases hb : blockCurrentProfile cs with
        | none =>
          rw [hb] at h
          dsimp only at h
          cases h
        | some cs1 =>
          rw [hb] at h
          dsimp only at h
          split at h
          · exact ih _ _ _ _ _ _ _ h resp hres
          · exact ih _ _ _ _ _ _ _ h resp hres
    | error e =>
      rw [hstub] at h
      dsimp only at h
      split at h
      · cases hb : rotateFingerprint cs with
        | none =>
          rw [hb] at h
          dsimp only at h
          cases h
        | some cs1 =>
          rw [hb] at h
          dsimp only at h
          exact ih _ _ _ _ _ _ _ h resp hres
      · exact ih _ _ _ _ _ _ _ h resp hres

/-- A run in which every remaining attempt is an ok-but-challenge response:
each attempt blocks the active identity and rotates (also on the final
attempt), and the distinguished escalation error comes out. -/
theorem requestWithRetryGo_allChallenge (stub : Nat → Except String HttpResponse)
    (retries : Nat)
    (hstub : ∀ i, 1 ≤ i → i ≤ retries →
      ∃ resp, stub i = .ok resp ∧ isCloudflareChallenge resp = true) :
    ∀ fuel attempt lastError cs rots,
      attempt + fuel = retries + 1 →
      1 ≤ attempt → attempt ≤ retries →
      cs.fm.profiles ≠ [] →
      ∃ cs', requestWithRetryGo stub retries fuel attempt lastError cs rots =
          some (.error challengeEscalationMsg, cs', rots + (retries + 1 - attempt)) ∧
        iterBlockCurrent (retries + 1 - attempt) cs = some cs' := by
  intro fuel
  induction fuel with
  | zero =>
    intro attempt lastError cs rots hsum h1 hle hp
    omega
  | succ fuel ih =>
    intro attempt lastError cs rots hsum h1 hle hp
    obtain ⟨resp, hok, hch⟩ := hstub attempt h1 hle
    obtain ⟨cs1, hb, hprof1⟩ := blockCurrentProfile_total cs hp
    by_cases hattlt : attempt < retries
    · obtain ⟨cs', hrec, hiter⟩ :=
        ih (attempt + 1) lastError cs1 (rots + 1) (by omega) (by omega) (by omega)
          (by rw [hprof1]; exact hp)
      refine ⟨cs', ?_, ?_⟩
      · rw [requestWithRetryGo, hok]
        dsimp only
        rw [hch]
        simp only [if_true]
        rw [hb]
        dsimp only
        rw [if_pos hattlt, hrec]
        have harith : rots + 1 + (retries + 1 - (attempt + 1)) =
            rots + (retries + 1 - attempt) := by omega
        rw [harith]
      · have harith : retries + 1 - attempt = (retries + 1 - (attempt + 1)) + 1 := by omega
        rw [harith, iterBlockCurrent, hb, Option.some_bind]
        exact hiter
    · have hfuel : fuel = 0 := by omega
      subst hfuel
      refine ⟨cs1, ?_, ?_⟩
      · rw [requestWithRetryGo, hok]
        dsimp only
        rw [hch]
        simp only [if_true]
        rw [hb]
        dsimp only
        rw [if_neg hattlt, requestWithRetryGo]
        have harith : retries + 1 - attempt = 1 := by omega
        rw [harith]
        simp [Option.getD]
      · have harith : retries + 1 - attempt = 1 := by omega
        rw [harith, iterBlockCurrent, hb, Option.some_bind, iterBlockCurrent]

/-- C3: `requestWithRetry` never returns a challenge-classified response;
and when every attempt up to the bound yields a challenge-classified
response, the active identity is blocked and the pool rotated on every one
of the `R` attempts (the final state is the `R`-fold
`blockCurrentProfile` iterate) and the distinguished browser-fallback
error is raised instead of any challenge response being returned. -/
theorem requestWithRetry_never_returns_challenge
    (stub : Nat → Except String HttpResponse) (R : Nat) (cs : ClientState) :
    (∀ res cs' rots resp,
      requestWithRetry stub R cs = some (res, cs', rots) → res = .ok resp →
      isCloudflareChallenge resp = false) ∧
    (1 ≤ R → cs.fm.profiles ≠ [] →
      (∀ i, 1 ≤ i → i ≤ R →
        ∃ resp, stub i = .ok resp ∧ isCloudflareChallenge resp = true) →
      ∃ cs', requestWithRetry stub R cs = some (.error challengeEscalationMsg, cs', R) ∧
        iterBlockCurrent R cs = some cs') := by
  constructor
  · intro res cs' rots resp h hres
    exact requestWithRetryGo_no_challenge stub R R 1 none cs 0 res cs' rots h resp hres
  · intro hR hp hstub
    obtain ⟨cs', hgo, hiter⟩ :=
      requestWithRetryGo_allChallenge stub R hstub R 1 none cs 0 (by omega) le_rfl hR hp
    have harith : R + 1 - 1 = R := by omega
    rw [harith] at hgo hiter
    refine ⟨cs', ?_, hiter⟩
    rw [requestWithRetry, hgo]
    have hz : 0 + R = R := by omega
    rw [hz]

/-- A stub that always answers 503 behind the CDN marker. -/
def stubC : Nat → Except String HttpResponse :=
  fun _ => .ok { status := 503, headers := [("cf-ray", "8z9")], body := "x" }

/-- Witness for C3: bound 2, both attempts challenged, two block-rotations
and the escalation error. -/
theorem requestWithRetry_never_returns_challenge_witness :
    ((1 : Nat) ≤ 2 ∧ csW.fm.profiles ≠ [] ∧
      isCloudflareChallenge { status := 503, headers := [("cf-ray", "8z9")], body := "x" } = true) ∧
    ∃ cs', requestWithRetry stubC 2 csW = some (.error challengeEscalationMsg, cs', 2) ∧
      iterBlockCurrent 2 csW = some cs' :=
  ⟨⟨by decide, by decide, by decide⟩,
    (requestWithRetry_never_returns_challenge stubC 2 csW).2 (by decide) (by decide)
      (fun i h1 h2 => ⟨{ status := 503, headers := [("cf-ray", "8z9")], body := "x" },
        rfl, by decide⟩)⟩

/-! ## C9 — least-used selection -/

/-- One step of the `getLeastUsedProfile` loop: a strictly smaller usage
count replaces the accumulator, a tie or larger count keeps it. -/
theorem getLeastUsedProfile_cons (usage : String → Nat) (a b : FingerprintProfile)
    (bs : List FingerprintProfile) :
    getLeastUsedProfile usage a (b :: bs) =
      if usage b.id < usage a.id then getLeastUsedProfile usage b bs
      else getLeastUsedProfile usage a bs := by
  unfold getLeastUsedProfile
  simp only [List.foldl_cons]
  by_cases h : usage b.id < usage a.id <;> simp [h]

/-- The selected profile attains the minimum usage count over the list, and
it is the first element of the list to do so (all elements before it have a
strictly larger count). -/
theorem getLeastUsedProfile_spec (usage : String → Nat) (a : FingerprintProfile)
    (rest : List FingerprintProfile) :
    (∀ q ∈ a :: rest, usage (getLeastUsedProfile usage a rest).id ≤ usage q.id) ∧
    ∃ l1 l2, a :: rest = l1 ++ getLeastUsedProfile usage a rest :: l2 ∧
      ∀ q ∈ l1, usage (getLeastUsedProfile usage a rest).id < usage q.id := by
  induction rest generalizing a with
  | nil =>
    constructor
    · intro q hq
      rw [List.mem_singleton.mp hq]
      simp [getLeastUsedProfile]
    · exact ⟨[], [], rfl, by simp⟩
  | cons b bs ih =>
    rw [getLeastUsedProfile_cons]
    by_cases hlt : usage b.id < usage a.id
    · rw [if_pos hlt]
      obtain ⟨hmin, l1, l2, hsplit, hstrict⟩ := ih b
      constructor
      · intro q hq
        rcases List.mem_cons.mp hq with heq | hq
        · rw [heq]
          exact le_of_lt (lt_of_le_of_lt (hmin b (List.mem_cons_self b bs)) hlt)
        · exact hmin q hq
      · refine ⟨a :: l1, l2, ?_, ?_⟩
        · rw [List.cons_append, ← hsplit]
        · intro q hq
          rcases List.mem_cons.mp hq with heq | hq
          · rw [heq]
            exact lt_of_le_of_lt (hmin b (List.mem_cons_self b bs)) hlt
          · exact hstrict q hq
    · rw [if_neg hlt]
      push_neg at hlt
      obtain ⟨hmin, l1, l2, hsplit, hstrict⟩ := ih a
      constructor
      · intro q hq
        rcases List.mem_cons.mp hq with heq | hq
        · rw [heq]
          exact hmin a (List.mem_cons_self a bs)
        · rcases List.mem_cons.mp hq with heq | hq'
          · rw [heq]
            exact le_trans (hmin a (List.mem_cons_self a bs)) hlt
          · exact hmin q (List.mem_cons_of_mem a hq')
      · cases l1 with
        | nil =>
          simp only [List.nil_append] at hsplit
          injection hsplit with h1 h2
          refine ⟨[], b :: bs, ?_, by simp⟩
          rw [List.nil_append, ← h1]
        | cons c l1' =>
          rw [List.cons_append] at hsplit
          injection hsplit with h1 h2
          have hra : usage (getLeastUsedProfile usage a bs).id < usage a.id := by
            have := hstrict c (List.mem_cons_self c l1')
            rw [← h1] at this
            exact this
          refine ⟨a :: b :: l1', l2, ?_, ?_⟩
          · rw [List.cons_append, List.cons_append, ← h2]
          · intro q hq
            rcases List.mem_cons.mp hq with heq | hq
            · rw [heq]
              exact hra
            · rcases List.mem_cons.mp hq with heq | hq'
              · rw [heq]
                exact lt_of_lt_of_le hra hlt
              · exact hstrict q (List.mem_cons_of_mem c hq')

/-- C9: under the least-used strategy, whenever the available set is
non-empty, `next()` returns a profile whose usage count equals the minimum
usage count over the available set (counts as they stood before the call's
own increment), and among the tied minima it is the first in catalog
order. -/
theorem leastUsed_min_first (m : ManagerState) (hs : m.strategy = .leastUsed)
    (a : FingerprintProfile) (as : List FingerprintProfile)
    (hava : availableProfiles m = a :: as) :
    ∃ p m', getNextProfile m = some (p, m') ∧
      (∀ q ∈ availableProfiles m, m.usageCount p.id ≤ m.usageCount q.id) ∧
      ∃ l1 l2, availableProfiles m = l1 ++ p :: l2 ∧
        ∀ q ∈ l1, m.usageCount p.id < m.usageCount q.id := by
  have hred : getNextProfile m = some (getLeastUsedProfile m.usageCount a as,
      recordUsage m (getLeastUsedProfile m.usageCount a as)) := by
    unfold getNextProfile getNextProfileFuel
    rw [hava]
    simp only [hs]
  obtain ⟨hmin, l1, l2, hsplit, hstrict⟩ := getLeastUsedProfile_spec m.usageCount a as
  refine ⟨_, _, hred, ?_, l1, l2, ?_, hstrict⟩
  · rw [hava]
    exact hmin
  · rw [hava]
    exact hsplit

/-- The default manager switched to the least-used strategy. -/
def m9 : ManagerState := { defaultManager with strategy := .leastUsed }

/-- Witness for C9 on the default catalog with zero usage everywhere. -/
theorem leastUsed_min_first_witness :
    m9.strategy = .leastUsed ∧
    availableProfiles m9 = PIXEL_8_CHROME_130 ::
      [GALAXY_S24_CHROME_130, ONEPLUS_12_CHROME_130, XIAOMI_14_CHROME_130,
       IPHONE_15_SAFARI_17, IPHONE_14_SAFARI_17] ∧
    ∃ p m', getNextProfile m9 = some (p, m') ∧
      (∀ q ∈ availableProfiles m9, m9.usageCount p.id ≤ m9.usageCount q.id) ∧
      ∃ l1 l2, availableProfiles m9 = l1 ++ p :: l2 ∧
        ∀ q ∈ l1, m9.usageCount p.id < m9.usageCount q.id :=
  ⟨by decide, by decide,
    leastUsed_min_first m9 (by decide) PIXEL_8_CHROME_130
      [GALAXY_S24_CHROME_130, ONEPLUS_12_CHROME_130, XIAOMI_14_CHROME_130,
       IPHONE_15_SAFARI_17, IPHONE_14_SAFARI_17] (by decide)⟩

/-! ## C8 — round-robin visits everything once -/

/-- One round-robin step with nothing blocked and no platform preference:
the cursor advances by one and the catalog entry at the new cursor modulo
the catalog size is returned. -/
theorem roundRobin_step (m : ManagerState) (hs : m.strategy = .roundRobin)
    (hb : m.blockedProfiles = []) (hpf : m.preferredPlatform = none)
    (a : FingerprintProfile) (as : List FingerprintProfile)
    (hprofiles : m.profiles = a :: as) :
    getNextProfile m =
      some (m.profiles.getD ((m.currentIndex + 1) % m.profiles.length) DEFAULT_PROFILE,
        recordUsage { m with currentIndex := m.currentIndex + 1 }
          (m.profiles.getD ((m.currentIndex + 1) % m.profiles.length) DEFAULT_PROFILE)) := by
  have hava : availableProfiles m = a :: as := by
    rw [availableProfiles_all m hb hpf, hprofiles]
  unfold getNextProfile getNextProfileFuel
  rw [hava]
  simp only [hs]
  have hlt : (m.currentIndex + 1) % (a :: as).length < (a :: as).length :=
    Nat.mod_lt _ (Nat.succ_pos _)
  rw [hprofiles]
  have h1 : (a :: as).getD ((m.currentIndex + 1) % (a :: as).length) DEFAULT_PROFILE
      = (a :: as).get ⟨(m.currentIndex + 1) % (a :: as).length, hlt⟩ := by
    rw [List.getD_eq_getElem _ _ hlt, List.get_eq_getElem]
  rw [h1]

/-- Collect the results of `n` consecutive `next()` calls. -/
def runNext : Nat → ManagerState → Option (List FingerprintProfile × ManagerState)
  | 0, m => some ([], m)
  | n + 1, m =>
    match getNextProfile m with
    | none => none
    | some (p, m1) =>
      match runNext n m1 with
      | none => none
      | some (l, m2) => some (p :: l, m2)

/-- Splitting off the head of a shifted `getD` enumeration. -/
theorem rangeMap_getD_shift (l : List FingerprintProfile) (d : FingerprintProfile)
    (c n : Nat) :
    (List.range (n + 1)).map (fun k => l.getD ((c + 1 + k) % l.length) d) =
      l.getD ((c + 1) % l.length) d ::
        (List.range n).map (fun k => l.getD ((c + 1 + 1 + k) % l.length) d) := by
  rw [List.range_succ_eq_map, List.map_cons, List.map_map]
  have hhead : c + 1 + 0 = c + 1 := by omega
  rw [hhead]
  congr 1
  apply List.map_congr_left
  intro k _
  show l.getD ((c + 1 + (k + 1)) % l.length) d = l.getD ((c + 1 + 1 + k) % l.length) d
  have harg : c + 1 + (k + 1) = c + 1 + 1 + k := by omega
  rw [harg]

/-- `n` round-robin steps from cursor `i` return the catalog entries at
positions `(i+1) % N, …, (i+n) % N` in order. -/
theorem roundRobin_run (n : Nat) :
    ∀ m : ManagerState, m.strategy = .roundRobin → m.blockedProfiles = [] →
    m.preferredPlatform = none → m.profiles ≠ [] →
    ∃ m', runNext n m =
        some ((List.range n).map (fun k =>
          m.profiles.getD ((m.currentIndex + 1 + k) % m.profiles.length) DEFAULT_PROFILE),
          m') ∧
      m'.profiles = m.profiles := by
  induction n with
  | zero =>
    intro m _ _ _ _
    exact ⟨m, by simp [runNext], rfl⟩
  | succ n ih =>
    intro m hs hb hpf hp
    obtain ⟨a, as, hprofiles⟩ : ∃ a as, m.profiles = a :: as := by
      cases hpm : m.profiles with
      | nil => exact absurd hpm hp
      | cons a as => exact ⟨a, as, rfl⟩
    have hstep := roundRobin_step m hs hb hpf a as hprofiles
    obtain ⟨m', hrun, hprof⟩ := ih
      (recordUsage { m with currentIndex := m.currentIndex + 1 }
        (m.profiles.getD ((m.currentIndex + 1) % m.profiles.length) DEFAULT_PROFILE))
      hs hb hpf hp
    refine ⟨m', ?_, hprof⟩
    rw [runNext, hstep]
    dsimp only
    rw [hrun]
    dsimp only
    rw [rangeMap_getD_shift m.profiles DEFAULT_PROFILE m.currentIndex n]
    rfl

/-- C8: under round-robin with nothing blocked and no platform filter, `N`
consecutive `next()` calls on an `N`-profile catalog return each catalog
profile exactly once (the result list is a permutation — in fact a
rotation — of the catalog). -/
theorem roundRobin_visits_all_once (m : ManagerState) (hs : m.strategy = .roundRobin)
    (hb : m.blockedProfiles = []) (hpf : m.preferredPlatform = none)
    (hp : m.profiles ≠ []) :
    ∃ l m', runNext m.profiles.length m = some (l, m') ∧ l.Perm m.profiles := by
  obtain ⟨m', hrun, -⟩ := roundRobin_run m.profiles.length m hs hb hpf hp
  refine ⟨_, m', hrun, ?_⟩
  have hN : 0 < m.profiles.length := List.length_pos.mpr hp
  have hrot : (List.range m.profiles.length).map (fun k =>
      m.profiles.getD ((m.currentIndex + 1 + k) % m.profiles.length) DEFAULT_PROFILE)
      = m.profiles.rotate (m.currentIndex + 1) := by
    apply List.ext_get
    · simp
    · intro i h1 h2
      have hi : i < m.profiles.length := by simpa using h1
      have hmod : (m.currentIndex + 1 + i) % m.profiles.length < m.profiles.length :=
        Nat.mod_lt _ hN
      have hmod' : (i + (m.currentIndex + 1)) % m.profiles.length < m.profiles.length :=
        Nat.mod_lt _ hN
      rw [List.get_rotate]
      simp only [List.get_eq_getElem, List.getElem_map, List.getElem_range,
        List.getD_eq_getElem _ _ hmod]
      have e1 : m.profiles[(m.currentIndex + 1 + i) % m.profiles.length] =
          m.profiles.getD ((m.currentIndex + 1 + i) % m.profiles.length) DEFAULT_PROFILE :=
        (List.getD_eq_getElem _ _ hmod).symm
      have e2 : m.profiles[(i + (m.currentIndex + 1)) % m.profiles.length] =
          m.profiles.getD ((i + (m.currentIndex + 1)) % m.profiles.length) DEFAULT_PROFILE :=
        (List.getD_eq_getElem _ _ hmod').symm
      rw [e1, e2]
      have harg : m.currentIndex + 1 + i = i + (m.currentIndex + 1) := by omega
      rw [harg]
  rw [hrot]
  exact List.rotate_perm _ _

/-- Witness for C8 on the default manager. -/
theorem roundRobin_visits_all_once_witness :
    (defaultManager.strategy = .roundRobin ∧ defaultManager.blockedProfiles = [] ∧
      defaultManager.preferredPlatform = none ∧ defaultManager.profiles ≠ []) ∧
    ∃ l m', runNext defaultManager.profiles.length defaultManager = some (l, m') ∧
      l.Perm defaultManager.profiles :=
  ⟨⟨by decide, by decide, by decide, by decide⟩,
    roundRobin_visits_all_once defaultManager (by decide) (by decide) (by decide) (by decide)⟩

end SunoVerify
